import Mathlib

/-!
# Verification of the speech-timer core

Shallow embedding of the repository's timer core:

* `src/utils/timer-engine.ts` — the `TimerEngine` class (status machine,
  `start/pause/resume/reset/setDuration`, the `requestAnimationFrame` tick
  handler `rafTick`, `updateTimeCalculations`, `checkPrecision`);
* `src/utils/bell-scheduler.ts` — the `BellScheduler` class
  (`checkBells`, `shouldTriggerBell`).

Modelling conventions:

* JavaScript numbers are modelled as rationals (`ℚ`).  All arithmetic the
  engine performs on reachable, finite inputs (`+`, `-`, `*`, `min`, `max`,
  comparisons) is exact on the values that occur, so `ℚ` is faithful there.
  The single place where IEEE special values can arise — the division
  `remainingMs / oldDuration` inside `setDuration` when `oldDuration` is `0`
  — is additionally modelled exactly with the `JsNum` type below (`NaN`,
  `±Infinity` and finite values), because Lean's `ℚ` division returns `0`
  at a zero denominator while JavaScript returns `NaN` or `±Infinity`.
* `performance.now()` becomes an explicit timestamp argument to each
  operation; the clock's monotonicity becomes a side condition on traces.
* The `BellScheduler` cursor `lastRemainingMs`, initialised to `Infinity`
  and compared with `=== Infinity`, is modelled as an `Option ℚ` where
  `none` is the `Infinity` sentinel ("no baseline yet").
* Callbacks (`onTick`, `onStatusChange`, `onFinish`, `onBellTriggered`) and
  audio playback are side channels that never influence the engine state,
  so they are not part of the state model.
-/

namespace SpeechTimer

/-- Status union `TimerStatus` from `timer-engine.ts`:
`'idle' | 'running' | 'paused' | 'finished'`. -/
inductive TimerStatus where
  | idle
  | running
  | paused
  | finished
deriving DecidableEq, Repr

/-- State record `TimerEngineState` from `timer-engine.ts`.  The optional `startTime`
field (`startTime?: number`) is an `Option ℚ`. -/
structure TimerEngineState where
  status : TimerStatus
  durationMs : ℚ
  elapsedMs : ℚ
  remainingMs : ℚ
  startTime : Option ℚ
  pauseAccumulatedMs : ℚ
  lastUpdateTime : ℚ
  precisionDriftMs : ℚ
deriving DecidableEq, Repr

namespace TimerEngineState

/-- The state built by the `TimerEngine` constructor: `status: 'idle'`,
`elapsedMs: 0`, `remainingMs: durationMs`, `pauseAccumulatedMs: 0`,
`lastUpdateTime: performance.now()`, `precisionDriftMs: 0`.
`now` is the `performance.now()` reading at construction. -/
def init (durationMs now : ℚ) : TimerEngineState :=
  { status := .idle
    durationMs := durationMs
    elapsedMs := 0
    remainingMs := durationMs
    startTime := none
    pauseAccumulatedMs := 0
    lastUpdateTime := now
    precisionDriftMs := 0 }

/-- Source `TimerEngine.start()` (state part): no-op if already `running`,
otherwise set `status := running`, `startTime := now`,
`lastUpdateTime := now`. -/
def start (s : TimerEngineState) (now : ℚ) : TimerEngineState :=
  if s.status = .running then s
  else { s with status := .running, startTime := some now, lastUpdateTime := now }

/-- Source `TimerEngine.pause()`: no-op unless `running`; otherwise add the
session elapsed time to `pauseAccumulatedMs`, clear `startTime`, set
`status := paused` and `lastUpdateTime := now`.  The session elapsed time
is the source's truthy ternary
`this.state.startTime ? now - this.state.startTime : 0`: in JavaScript a
`startTime` of `0` is falsy just like `undefined`, so the ternary yields
`0` not only when `startTime` is absent but also when it is exactly `0`
(an engine started at clock reading `0`). -/
def pause (s : TimerEngineState) (now : ℚ) : TimerEngineState :=
  if s.status ≠ .running then s
  else
    let sessionElapsed := match s.startTime with
      | some st => if st = 0 then 0 else now - st
      | none => 0
    { s with
        status := .paused
        pauseAccumulatedMs := s.pauseAccumulatedMs + sessionElapsed
        startTime := none
        lastUpdateTime := now }

/-- Source `TimerEngine.resume()`: no-op unless `paused`, otherwise `start()`. -/
def resume (s : TimerEngineState) (now : ℚ) : TimerEngineState :=
  if s.status ≠ .paused then s
  else s.start now

/-- Source `TimerEngine.reset()`: fresh `idle` state preserving `durationMs`,
with `lastUpdateTime := now`. -/
def reset (s : TimerEngineState) (now : ℚ) : TimerEngineState :=
  { status := .idle
    durationMs := s.durationMs
    elapsedMs := 0
    remainingMs := s.durationMs
    startTime := none
    pauseAccumulatedMs := 0
    lastUpdateTime := now
    precisionDriftMs := 0 }

/-- Source `TimerEngine.updateTimeCalculations(timestamp)`: early-returns when
`startTime` is `undefined`; otherwise recomputes
`elapsedMs := min(totalElapsed, durationMs)`,
`remainingMs := max(0, durationMs - totalElapsed)`,
`lastUpdateTime := timestamp`, where
`totalElapsed = pauseAccumulatedMs + (timestamp - startTime)`. -/
def updateTimeCalculations (s : TimerEngineState) (timestamp : ℚ) : TimerEngineState :=
  match s.startTime with
  | none => s
  | some st =>
    let sessionElapsed := timestamp - st
    let totalElapsed := s.pauseAccumulatedMs + sessionElapsed
    { s with
        elapsedMs := min totalElapsed s.durationMs
        remainingMs := max 0 (s.durationMs - totalElapsed)
        lastUpdateTime := timestamp }

/-- Source `TimerEngine.setDuration(durationMs)`: early return if the new value
equals the current `durationMs`; otherwise rescale
`remainingMs := max(0, durationMs * (remainingMs / oldDuration))` and run
`updateTimeCalculations(performance.now())`.  `now` is that
`performance.now()` reading.

The source divides with IEEE semantics; here `ℚ` division is used, which
returns `0` at denominator `0` where JavaScript returns `NaN` (for
`0 / 0`) or `±Infinity`.  The zero-denominator case is modelled exactly by
`setDurationRescaledRemaining` below; on every state with
`durationMs ≠ 0`, and on every state whose `startTime` is present (where
`updateTimeCalculations` overwrites both `elapsedMs` and `remainingMs`),
this `ℚ` translation agrees with the source. -/
def setDuration (s : TimerEngineState) (durationMs now : ℚ) : TimerEngineState :=
  if s.durationMs = durationMs then s
  else
    let oldDuration := s.durationMs
    let remainingRatio := s.remainingMs / oldDuration
    let s1 := { s with
        durationMs := durationMs
        remainingMs := max 0 (durationMs * remainingRatio) }
    s1.updateTimeCalculations now

end TimerEngineState

/-- The `TimerEngine` object: its `state` field plus the private
bookkeeping fields `lastRafTime` and `lastPrecisionCheck` (both
initialised to `0` in the class).  The `rafId` handle only controls
whether the browser schedules another frame; it never influences the
computed state, so it is not modelled (ticks are simply steps that may
occur, and `rafTick` itself guards on `status === 'running'`). -/
structure TimerEngine where
  state : TimerEngineState
  lastRafTime : ℚ
  lastPrecisionCheck : ℚ
deriving DecidableEq, Repr

namespace TimerEngine

/-- Constant `precisionCheckInterval = 1000` from the class. -/
def precisionCheckInterval : ℚ := 1000

/-- Engine construction at clock reading `now`. -/
def init (durationMs now : ℚ) : TimerEngine :=
  { state := TimerEngineState.init durationMs now
    lastRafTime := 0
    lastPrecisionCheck := 0 }

/-- Method `start()` on the engine: the state transition plus `startRafLoop()`,
which sets `lastRafTime` and `lastPrecisionCheck` to `performance.now()`.
When the engine is already `running` nothing happens at all. -/
def start (e : TimerEngine) (now : ℚ) : TimerEngine :=
  if e.state.status = .running then e
  else
    { state := e.state.start now
      lastRafTime := now
      lastPrecisionCheck := now }

/-- Method `pause()` on the engine (`stopRafLoop` touches only `rafId`). -/
def pause (e : TimerEngine) (now : ℚ) : TimerEngine :=
  { e with state := e.state.pause now }

/-- Method `resume()` on the engine: no-op unless `paused`, otherwise `start()`. -/
def resume (e : TimerEngine) (now : ℚ) : TimerEngine :=
  if e.state.status ≠ .paused then e
  else e.start now

/-- Method `reset()` on the engine. -/
def reset (e : TimerEngine) (now : ℚ) : TimerEngine :=
  { e with state := e.state.reset now }

/-- Method `setDuration()` on the engine. -/
def setDuration (e : TimerEngine) (durationMs now : ℚ) : TimerEngine :=
  { e with state := e.state.setDuration durationMs now }

/-- Source `checkPrecision(timestamp)`: at most once per `precisionCheckInterval`,
store `|theoreticalElapsed - elapsedMs|` in `precisionDriftMs` and move
`lastPrecisionCheck` forward, where
`theoreticalElapsed = pauseAccumulatedMs + (startTime ? timestamp - startTime : 0)`.
Like `pause()`, the source uses the truthy ternary on `startTime`, so a
`startTime` of exactly `0` contributes `0` (it is falsy in JavaScript),
not `timestamp - 0`. -/
def checkPrecision (e : TimerEngine) (timestamp : ℚ) : TimerEngine :=
  if timestamp - e.lastPrecisionCheck < precisionCheckInterval then e
  else
    let theoreticalElapsed := e.state.pauseAccumulatedMs +
      (match e.state.startTime with
        | some st => if st = 0 then 0 else timestamp - st
        | none => 0)
    { e with
        state := { e.state with
          precisionDriftMs := |theoreticalElapsed - e.state.elapsedMs| }
        lastPrecisionCheck := timestamp }

/-- Source `rafTick(timestamp)`: return unless `running`; run
`updateTimeCalculations` then `checkPrecision`; if `remainingMs <= 0`,
transition to `finished` with `elapsedMs := durationMs`,
`remainingMs := 0` (note: `startTime` is *not* cleared there). -/
def rafTick (e : TimerEngine) (timestamp : ℚ) : TimerEngine :=
  if e.state.status ≠ .running then e
  else
    let e1 := { e with state := e.state.updateTimeCalculations timestamp }
    let e2 := e1.checkPrecision timestamp
    if e2.state.remainingMs ≤ 0 then
      { e2 with state := { e2.state with
          status := .finished
          elapsedMs := e2.state.durationMs
          remainingMs := 0 } }
    else e2

end TimerEngine

/-! ## Bell scheduler (`src/utils/bell-scheduler.ts`) -/

/-- Bell names `BellType` from `bell-scheduler.ts`: `'first' | 'second' | 'third'`. -/
inductive BellType where
  | first
  | second
  | third
deriving DecidableEq, Repr

/-- The `{first, second, third}`-shaped boolean records used by
`TimerSettings.bellEnabled` and `BellState.triggered` in `src/types`. -/
structure BellToggles where
  first : Bool
  second : Bool
  third : Bool
deriving DecidableEq, Repr

/-- Threshold record `TimerSettings.bellTimesMs` from `src/types`: a threshold per bell. -/
structure BellTimes where
  first : ℚ
  second : ℚ
  third : ℚ
deriving DecidableEq, Repr

/-- The part of `TimerSettings` (`src/types`) that `checkBells` reads.
The remaining fields (`theme`, `progressMode`, `volume`) are UI
configuration never consulted by the scheduler's trigger logic. -/
structure TimerSettings where
  bellEnabled : BellToggles
  bellTimesMs : BellTimes
deriving DecidableEq, Repr

/-- The part of `BellState` (`src/types`) that `checkBells` reads; the
`lastCheckMs` field is never consulted by the scheduler. -/
structure BellState where
  triggered : BellToggles
deriving DecidableEq, Repr

/-- Source `BellScheduler.shouldTriggerBell`: enabled, not already triggered,
positive threshold, and a decreasing crossing
`previousRemainingMs > thresholdMs && currentRemainingMs <= thresholdMs`. -/
def shouldTriggerBell (thresholdMs currentRemainingMs previousRemainingMs : ℚ)
    (enabled alreadyTriggered : Bool) : Bool :=
  if !enabled then false
  else if alreadyTriggered then false
  else if thresholdMs ≤ 0 then false
  else decide (previousRemainingMs > thresholdMs) && decide (currentRemainingMs ≤ thresholdMs)

/-- The `bellChecks` array built inside `checkBells`, in source order:
`(type, thresholdMs, enabled, alreadyTriggered)`. -/
def bellChecks (settings : TimerSettings) (bellState : BellState) :
    List (BellType × ℚ × Bool × Bool) :=
  [ (.first, settings.bellTimesMs.first, settings.bellEnabled.first,
      bellState.triggered.first),
    (.second, settings.bellTimesMs.second, settings.bellEnabled.second,
      bellState.triggered.second),
    (.third, settings.bellTimesMs.third, settings.bellEnabled.third,
      bellState.triggered.third) ]

/-- Source `BellScheduler.checkBells`.  The scheduler's only internal state is the
cursor `lastRemainingMs`, initialised to `Infinity` and reset to
`Infinity` by `BellScheduler.reset()`; the `Infinity` sentinel is modelled
as `none`.  The function returns the list of triggered bell types together
with the new cursor value.  On the first call (`lastRemainingMs ===
Infinity`) it records the cursor and returns the empty list; otherwise it
collects, in source order, every bell for which `shouldTriggerBell` holds,
and finally sets the cursor to `currentRemainingMs`.  (Sound playback and
the `onBellTriggered` callback are effect channels with no influence on
this state.) -/
def checkBells (lastRemainingMs : Option ℚ) (currentRemainingMs : ℚ)
    (settings : TimerSettings) (bellState : BellState) :
    List BellType × Option ℚ :=
  match lastRemainingMs with
  | none => ([], some currentRemainingMs)
  | some previousRemainingMs =>
    ((bellChecks settings bellState).filterMap fun bell =>
        if shouldTriggerBell bell.2.1 currentRemainingMs previousRemainingMs
            bell.2.2.1 bell.2.2.2
        then some bell.1 else none,
      some currentRemainingMs)

/-- Threshold configured for a bell type. -/
def BellType.thresholdOf (b : BellType) (settings : TimerSettings) : ℚ :=
  match b with
  | .first => settings.bellTimesMs.first
  | .second => settings.bellTimesMs.second
  | .third => settings.bellTimesMs.third

/-- Enabled flag configured for a bell type. -/
def BellType.enabledOf (b : BellType) (settings : TimerSettings) : Bool :=
  match b with
  | .first => settings.bellEnabled.first
  | .second => settings.bellEnabled.second
  | .third => settings.bellEnabled.third

/-- Already-triggered flag recorded for a bell type. -/
def BellType.triggeredOf (b : BellType) (bellState : BellState) : Bool :=
  match b with
  | .first => bellState.triggered.first
  | .second => bellState.triggered.second
  | .third => bellState.triggered.third

/-! ## IEEE special values for the `setDuration` rescale

JavaScript's `/`, `*` and `Math.max` on `number` produce `NaN` and
`±Infinity` at the corner the spec discusses (`oldDurationMs == 0`).
`JsNum` models exactly the value lattice those three operations need:
`NaN`, `+Infinity`, `-Infinity`, or a finite value. -/

/-- A JavaScript `number` that is `NaN`, `±Infinity`, or finite. -/
inductive JsNum where
  | nan
  | posInf
  | negInf
  | num (q : ℚ)
deriving DecidableEq, Repr

namespace JsNum

/-- IEEE division as JavaScript's `/`: `NaN` propagates; `0 / 0` is `NaN`;
a nonzero finite value divided by `0` is `±Infinity`; a finite value
divided by an infinity is `0`; an infinity divided by an infinity is
`NaN`.  (ℚ has a single unsigned zero, so the negative-zero sign rules
collapse.) -/
def jsDiv : JsNum → JsNum → JsNum
  | nan, _ => nan
  | _, nan => nan
  | num a, num b =>
      if b = 0 then
        if a = 0 then nan else if 0 < a then posInf else negInf
      else num (a / b)
  | posInf, num b => if 0 ≤ b then posInf else negInf
  | negInf, num b => if 0 ≤ b then negInf else posInf
  | num _, posInf => num 0
  | num _, negInf => num 0
  | posInf, posInf => nan
  | posInf, negInf => nan
  | negInf, posInf => nan
  | negInf, negInf => nan

/-- IEEE multiplication as JavaScript's `*`: `NaN` propagates;
`0 * ±Infinity` is `NaN`; otherwise infinities keep the product's sign. -/
def jsMul : JsNum → JsNum → JsNum
  | nan, _ => nan
  | _, nan => nan
  | num a, num b => num (a * b)
  | posInf, num b => if b = 0 then nan else if 0 < b then posInf else negInf
  | num a, posInf => if a = 0 then nan else if 0 < a then posInf else negInf
  | negInf, num b => if b = 0 then nan else if 0 < b then negInf else posInf
  | num a, negInf => if a = 0 then nan else if 0 < a then negInf else posInf
  | posInf, posInf => posInf
  | posInf, negInf => negInf
  | negInf, posInf => negInf
  | negInf, negInf => posInf

/-- IEEE `Math.max` on two arguments: `NaN` if either argument is `NaN`. -/
def jsMax : JsNum → JsNum → JsNum
  | nan, _ => nan
  | _, nan => nan
  | posInf, _ => posInf
  | _, posInf => posInf
  | negInf, b => b
  | a, negInf => a
  | num a, num b => num (max a b)

end JsNum

/-- The new `remainingMs` computed inside `TimerEngine.setDuration` (after
the early-equality return), under exact IEEE-style semantics:
`Math.max(0, durationMs * (remainingMs / oldDuration))` with
`remainingRatio = this.state.remainingMs / oldDuration`.  There is no
guard on `oldDuration` in the source. -/
def setDurationRescaledRemaining
    (remainingMs oldDurationMs newDurationMs : JsNum) : JsNum :=
  JsNum.jsMax (.num 0) (JsNum.jsMul newDurationMs (JsNum.jsDiv remainingMs oldDurationMs))

/-! ## Reachability

`Reachable` closes the engine constructor under the five public mutating
operations and the frame tick, with arbitrary timestamps — every state an
actual `TimerEngine` object can be in is of this shape. -/

/-- Engine states reachable by some sequence of public operations and
frame ticks from construction, with arbitrary timestamp arguments. -/
inductive Reachable : TimerEngine → Prop where
  | init (d t0 : ℚ) : Reachable (TimerEngine.init d t0)
  | start (e : TimerEngine) (t : ℚ) : Reachable e → Reachable (e.start t)
  | pause (e : TimerEngine) (t : ℚ) : Reachable e → Reachable (e.pause t)
  | resume (e : TimerEngine) (t : ℚ) : Reachable e → Reachable (e.resume t)
  | reset (e : TimerEngine) (t : ℚ) : Reachable e → Reachable (e.reset t)
  | setDuration (e : TimerEngine) (d t : ℚ) :
      Reachable e → Reachable (e.setDuration d t)
  | tick (e : TimerEngine) (t : ℚ) : Reachable e → Reachable (e.rafTick t)

/-- Reachability under a monotone clock and validated `setDuration` calls:
timestamps never decrease (`performance.now()` is monotone), requested
durations are nonnegative (the app validates durations through
`validateDurationMs` before they reach the engine), and `setDuration` is
only invoked when `startTime` is present (so the recompute actually runs)
or on a freshly idle engine with nonzero duration.  The second component
is the clock reading as of the last operation. -/
inductive ReachableSafe : TimerEngine → ℚ → Prop where
  | init (d t0 : ℚ) (hd : 0 ≤ d) : ReachableSafe (TimerEngine.init d t0) t0
  | start (e : TimerEngine) (clk t : ℚ) (h : ReachableSafe e clk) (ht : clk ≤ t) :
      ReachableSafe (e.start t) t
  | pause (e : TimerEngine) (clk t : ℚ) (h : ReachableSafe e clk) (ht : clk ≤ t) :
      ReachableSafe (e.pause t) t
  | resume (e : TimerEngine) (clk t : ℚ) (h : ReachableSafe e clk) (ht : clk ≤ t) :
      ReachableSafe (e.resume t) t
  | reset (e : TimerEngine) (clk t : ℚ) (h : ReachableSafe e clk) (ht : clk ≤ t) :
      ReachableSafe (e.reset t) t
  | setDuration (e : TimerEngine) (clk d t : ℚ) (h : ReachableSafe e clk)
      (ht : clk ≤ t) (hd : 0 ≤ d)
      (hsafe : e.state.startTime ≠ none ∨
        (e.state.status = .idle ∧ e.state.durationMs ≠ 0)) :
      ReachableSafe (e.setDuration d t) t
  | tick (e : TimerEngine) (clk t : ℚ) (h : ReachableSafe e clk) (ht : clk ≤ t) :
      ReachableSafe (e.rafTick t) t

/-! ## Frame lemmas for the individual operations -/

namespace TimerEngineState

theorem updateTimeCalculations_status (s : TimerEngineState) (t : ℚ) :
    (s.updateTimeCalculations t).status = s.status := by
  cases hst : s.startTime <;> simp [updateTimeCalculations, hst]

theorem updateTimeCalculations_startTime (s : TimerEngineState) (t : ℚ) :
    (s.updateTimeCalculations t).startTime = s.startTime := by
  cases hst : s.startTime <;> simp [updateTimeCalculations, hst]

theorem updateTimeCalculations_durationMs (s : TimerEngineState) (t : ℚ) :
    (s.updateTimeCalculations t).durationMs = s.durationMs := by
  cases hst : s.startTime <;> simp [updateTimeCalculations, hst]

theorem updateTimeCalculations_pauseAccumulatedMs (s : TimerEngineState) (t : ℚ) :
    (s.updateTimeCalculations t).pauseAccumulatedMs = s.pauseAccumulatedMs := by
  cases hst : s.startTime <;> simp [updateTimeCalculations, hst]

theorem setDuration_status (s : TimerEngineState) (d now : ℚ) :
    (s.setDuration d now).status = s.status := by
  unfold setDuration
  split
  · rfl
  · rw [updateTimeCalculations_status]

theorem setDuration_startTime (s : TimerEngineState) (d now : ℚ) :
    (s.setDuration d now).startTime = s.startTime := by
  unfold setDuration
  split
  · rfl
  · rw [updateTimeCalculations_startTime]

theorem setDuration_pauseAccumulatedMs (s : TimerEngineState) (d now : ℚ) :
    (s.setDuration d now).pauseAccumulatedMs = s.pauseAccumulatedMs := by
  unfold setDuration
  split
  · rfl
  · rw [updateTimeCalculations_pauseAccumulatedMs]

theorem setDuration_durationMs (s : TimerEngineState) (d now : ℚ) :
    (s.setDuration d now).durationMs = d := by
  unfold setDuration
  split
  · assumption
  · rw [updateTimeCalculations_durationMs]

end TimerEngineState

namespace TimerEngine

theorem checkPrecision_status (e : TimerEngine) (t : ℚ) :
    (e.checkPrecision t).state.status = e.state.status := by
  unfold checkPrecision; split <;> rfl

theorem checkPrecision_startTime (e : TimerEngine) (t : ℚ) :
    (e.checkPrecision t).state.startTime = e.state.startTime := by
  unfold checkPrecision; split <;> rfl

theorem checkPrecision_durationMs (e : TimerEngine) (t : ℚ) :
    (e.checkPrecision t).state.durationMs = e.state.durationMs := by
  unfold checkPrecision; split <;> rfl

theorem checkPrecision_elapsedMs (e : TimerEngine) (t : ℚ) :
    (e.checkPrecision t).state.elapsedMs = e.state.elapsedMs := by
  unfold checkPrecision; split <;> rfl

theorem checkPrecision_remainingMs (e : TimerEngine) (t : ℚ) :
    (e.checkPrecision t).state.remainingMs = e.state.remainingMs := by
  unfold checkPrecision; split <;> rfl

theorem checkPrecision_pauseAccumulatedMs (e : TimerEngine) (t : ℚ) :
    (e.checkPrecision t).state.pauseAccumulatedMs = e.state.pauseAccumulatedMs := by
  unfold checkPrecision; split <;> rfl

theorem checkPrecision_lastUpdateTime (e : TimerEngine) (t : ℚ) :
    (e.checkPrecision t).state.lastUpdateTime = e.state.lastUpdateTime := by
  unfold checkPrecision; split <;> rfl

end TimerEngine

/-! ## The inductive state invariant -/

/-- The inductive invariant carried by `ReachableSafe`: the accounting
identity `remainingMs + elapsedMs = durationMs` with both summands inside
`[0, durationMs]`, the bookkeeping facts needed to preserve it
(`pauseAccumulatedMs ≥ 0`, any recorded `startTime` is no later than the
clock, an `idle` state is fresh), and the `startTime`-presence
characterisation (`startTime` is absent exactly in `idle` and `paused`
states — a `finished` state keeps the `startTime` of the run that
finished it, since `rafTick` does not clear the field). -/
structure StateInv (s : TimerEngineState) (clk : ℚ) : Prop where
  duration_nonneg : 0 ≤ s.durationMs
  sum_eq : s.remainingMs + s.elapsedMs = s.durationMs
  elapsed_nonneg : 0 ≤ s.elapsedMs
  elapsed_le : s.elapsedMs ≤ s.durationMs
  pauseAccum_nonneg : 0 ≤ s.pauseAccumulatedMs
  startTime_le : ∀ st, s.startTime = some st → st ≤ clk
  startTime_none_iff : s.startTime = none ↔
    (s.status = TimerStatus.idle ∨ s.status = TimerStatus.paused)
  idle_fresh : s.status = TimerStatus.idle →
    s.elapsedMs = 0 ∧ s.remainingMs = s.durationMs ∧ s.pauseAccumulatedMs = 0

theorem StateInv.mono {s : TimerEngineState} {clk t : ℚ}
    (h : StateInv s clk) (ht : clk ≤ t) : StateInv s t :=
  { h with startTime_le := fun st hst => le_trans (h.startTime_le st hst) ht }

/-- The `min`/`max` algebra shared by `updateTimeCalculations` call sites:
recomputing from a nonnegative total elapsed time restores the accounting
identity and the bounds. -/
theorem recompute_identity (d total : ℚ) (hd : 0 ≤ d) (htotal : 0 ≤ total) :
    max 0 (d - total) + min total d = d ∧
      0 ≤ min total d ∧ min total d ≤ d := by
  refine ⟨?_, le_min htotal hd, min_le_right _ _⟩
  rcases le_total total d with h | h
  · rw [max_eq_right (by linarith), min_eq_left h]; ring
  · rw [max_eq_left (by linarith), min_eq_right h]; ring

theorem stateInv_init (d t0 : ℚ) (hd : 0 ≤ d) :
    StateInv (TimerEngineState.init d t0) t0 := by
  constructor <;> simp [TimerEngineState.init, hd]

theorem stateInv_start {s : TimerEngineState} {clk : ℚ} (h : StateInv s clk)
    {t : ℚ} (ht : clk ≤ t) : StateInv (s.start t) t := by
  unfold TimerEngineState.start
  split
  · exact h.mono ht
  · refine ⟨h.duration_nonneg, h.sum_eq, h.elapsed_nonneg, h.elapsed_le,
      h.pauseAccum_nonneg, ?_, ?_, ?_⟩ <;> simp

theorem TimerEngineState.updateTimeCalculations_none (s : TimerEngineState)
    (t : ℚ) (hst : s.startTime = none) : s.updateTimeCalculations t = s := by
  unfold TimerEngineState.updateTimeCalculations
  rw [hst]

theorem TimerEngineState.updateTimeCalculations_some (s : TimerEngineState) (st t : ℚ)
    (hst : s.startTime = some st) :
    s.updateTimeCalculations t =
      { s with
          elapsedMs := min (s.pauseAccumulatedMs + (t - st)) s.durationMs
          remainingMs := max 0 (s.durationMs - (s.pauseAccumulatedMs + (t - st)))
          lastUpdateTime := t } := by
  unfold TimerEngineState.updateTimeCalculations
  rw [hst]

theorem TimerEngineState.setDuration_of_ne {s : TimerEngineState} {d : ℚ}
    (hne : s.durationMs ≠ d) (now : ℚ) :
    s.setDuration d now =
      TimerEngineState.updateTimeCalculations
        { s with
            durationMs := d
            remainingMs := max 0 (d * (s.remainingMs / s.durationMs)) } now := by
  unfold TimerEngineState.setDuration
  rw [if_neg hne]

theorem TimerEngineState.pause_of_running {s : TimerEngineState} {st : ℚ}
    (hrun : s.status = TimerStatus.running) (hst : s.startTime = some st) (t : ℚ) :
    s.pause t =
      { s with
          status := .paused
          pauseAccumulatedMs := s.pauseAccumulatedMs + (if st = 0 then 0 else t - st)
          startTime := none
          lastUpdateTime := t } := by
  unfold TimerEngineState.pause
  rw [if_neg (not_not_intro hrun), hst]

theorem stateInv_pause {s : TimerEngineState} {clk : ℚ} (h : StateInv s clk)
    {t : ℚ} (ht : clk ≤ t) : StateInv (s.pause t) t := by
  by_cases hrun : s.status = TimerStatus.running
  · have hsome : s.startTime ≠ none := by
      intro hnone
      rcases h.startTime_none_iff.mp hnone with hi | hi <;> rw [hi] at hrun <;>
        exact TimerStatus.noConfusion hrun
    rcases Option.ne_none_iff_exists.mp hsome with ⟨st, hst⟩
    have hstle : st ≤ clk := h.startTime_le st hst.symm
    rw [TimerEngineState.pause_of_running hrun hst.symm t]
    refine ⟨h.duration_nonneg, h.sum_eq, h.elapsed_nonneg, h.elapsed_le, ?_,
      by simp, by simp, by simp⟩
    show (0 : ℚ) ≤ s.pauseAccumulatedMs + (if st = 0 then 0 else t - st)
    have := h.pauseAccum_nonneg
    split_ifs with h0
    · linarith
    · linarith
  · rw [show s.pause t = s by unfold TimerEngineState.pause; rw [if_pos hrun]]
    exact h.mono ht

theorem stateInv_reset {s : TimerEngineState} {clk : ℚ} (h : StateInv s clk)
    (t : ℚ) : StateInv (s.reset t) t := by
  unfold TimerEngineState.reset
  refine ⟨h.duration_nonneg, ?_, ?_, h.duration_nonneg, ?_, ?_, ?_, ?_⟩ <;> simp

theorem stateInv_resume {s : TimerEngineState} {clk : ℚ} (h : StateInv s clk)
    {t : ℚ} (ht : clk ≤ t) : StateInv (s.resume t) t := by
  unfold TimerEngineState.resume
  split
  · exact h.mono ht
  · exact stateInv_start h ht

theorem stateInv_setDuration {s : TimerEngineState} {clk : ℚ} (h : StateInv s clk)
    {d t : ℚ} (ht : clk ≤ t) (hd : 0 ≤ d)
    (hsafe : s.startTime ≠ none ∨ (s.status = TimerStatus.idle ∧ s.durationMs ≠ 0)) :
    StateInv (s.setDuration d t) t := by
  by_cases heq : s.durationMs = d
  · rw [show s.setDuration d t = s by
      unfold TimerEngineState.setDuration; rw [if_pos heq]]
    exact h.mono ht
  · rw [TimerEngineState.setDuration_of_ne heq t]
    rcases hsafe with hsome | ⟨hidle, hdur⟩
    · rcases Option.ne_none_iff_exists.mp hsome with ⟨st, hst⟩
      have hstle : st ≤ clk := h.startTime_le st hst.symm
      have htotal : 0 ≤ s.pauseAccumulatedMs + (t - st) := by
        have := h.pauseAccum_nonneg; linarith
      obtain ⟨hsum, h0, hle⟩ :=
        recompute_identity d (s.pauseAccumulatedMs + (t - st)) hd htotal
      rw [TimerEngineState.updateTimeCalculations_some
        { s with
            durationMs := d
            remainingMs := max 0 (d * (s.remainingMs / s.durationMs)) }
        st t hst.symm]
      refine ⟨hd, ?_, ?_, ?_, h.pauseAccum_nonneg, ?_, ?_, ?_⟩
      · show max 0 (d - (s.pauseAccumulatedMs + (t - st))) +
          min (s.pauseAccumulatedMs + (t - st)) d = d
        exact hsum
      · exact h0
      · exact hle
      · intro st' hst'
        have hss : s.startTime = some st' := by simpa using hst'
        rw [← hst] at hss
        injection hss with hstst
        rw [← hstst]
        linarith
      · show s.startTime = none ↔
          (s.status = TimerStatus.idle ∨ s.status = TimerStatus.paused)
        exact h.startTime_none_iff
      · intro hidle
        exact absurd (h.startTime_none_iff.mpr (Or.inl (by simpa using hidle))) hsome
    · obtain ⟨he0, hrd, hp0⟩ := h.idle_fresh hidle
      have hstnone : s.startTime = none := h.startTime_none_iff.mpr (Or.inl hidle)
      rw [TimerEngineState.updateTimeCalculations_none
        { s with
            durationMs := d
            remainingMs := max 0 (d * (s.remainingMs / s.durationMs)) }
        t hstnone]
      have hremain : max 0 (d * (s.remainingMs / s.durationMs)) = d := by
        rw [hrd, div_self hdur, mul_one, max_eq_right hd]
      refine ⟨hd, ?_, ?_, ?_, ?_, ?_, ?_, ?_⟩
      · show max 0 (d * (s.remainingMs / s.durationMs)) + s.elapsedMs = d
        rw [hremain, he0, add_zero]
      · exact h.elapsed_nonneg
      · show s.elapsedMs ≤ d
        rw [he0]; exact hd
      · exact h.pauseAccum_nonneg
      · intro st' hst'
        exact absurd (by simpa using hst' : s.startTime = some st') (by simp [hstnone])
      · simp [hstnone, hidle]
      · intro _
        refine ⟨he0, ?_, hp0⟩
        show max 0 (d * (s.remainingMs / s.durationMs)) = d
        exact hremain

theorem stateInv_checkPrecision {e : TimerEngine} {clk : ℚ} (h : StateInv e.state clk)
    (t : ℚ) : StateInv (e.checkPrecision t).state clk := by
  refine ⟨?_, ?_, ?_, ?_, ?_, ?_, ?_, ?_⟩
  · rw [TimerEngine.checkPrecision_durationMs]; exact h.duration_nonneg
  · rw [TimerEngine.checkPrecision_remainingMs, TimerEngine.checkPrecision_elapsedMs,
      TimerEngine.checkPrecision_durationMs]
    exact h.sum_eq
  · rw [TimerEngine.checkPrecision_elapsedMs]; exact h.elapsed_nonneg
  · rw [TimerEngine.checkPrecision_elapsedMs, TimerEngine.checkPrecision_durationMs]
    exact h.elapsed_le
  · rw [TimerEngine.checkPrecision_pauseAccumulatedMs]; exact h.pauseAccum_nonneg
  · intro st hst
    rw [TimerEngine.checkPrecision_startTime] at hst
    exact h.startTime_le st hst
  · rw [TimerEngine.checkPrecision_startTime, TimerEngine.checkPrecision_status]
    exact h.startTime_none_iff
  · intro hi
    rw [TimerEngine.checkPrecision_status] at hi
    rw [TimerEngine.checkPrecision_elapsedMs, TimerEngine.checkPrecision_remainingMs,
      TimerEngine.checkPrecision_durationMs, TimerEngine.checkPrecision_pauseAccumulatedMs]
    exact h.idle_fresh hi

theorem stateInv_finishCheck (e2 : TimerEngine) (t : ℚ) (h2 : StateInv e2.state t)
    (hrun2 : e2.state.status = TimerStatus.running) :
    StateInv (if e2.state.remainingMs ≤ 0 then
        { e2 with state := { e2.state with
            status := .finished
            elapsedMs := e2.state.durationMs
            remainingMs := 0 } }
      else e2).state t := by
  split
  · refine ⟨h2.duration_nonneg, ?_, h2.duration_nonneg, le_refl _, h2.pauseAccum_nonneg,
      ?_, ?_, ?_⟩
    · show (0 : ℚ) + e2.state.durationMs = e2.state.durationMs
      rw [zero_add]
    · intro st hst
      exact h2.startTime_le st hst
    · show e2.state.startTime = none ↔
        (TimerStatus.finished = TimerStatus.idle ∨ TimerStatus.finished = TimerStatus.paused)
      constructor
      · intro hnone
        rcases h2.startTime_none_iff.mp hnone with hi | hi <;> rw [hrun2] at hi <;>
          exact TimerStatus.noConfusion hi
      · rintro (hcon | hcon) <;> exact TimerStatus.noConfusion hcon
    · intro hcon
      exact TimerStatus.noConfusion hcon
  · exact h2

theorem stateInv_rafTick {e : TimerEngine} {clk : ℚ} (h : StateInv e.state clk)
    {t : ℚ} (ht : clk ≤ t) : StateInv (e.rafTick t).state t := by
  by_cases hrun : e.state.status = TimerStatus.running
  · have hsome : e.state.startTime ≠ none := by
      intro hnone
      rcases h.startTime_none_iff.mp hnone with hi | hi <;> rw [hrun] at hi <;>
        exact TimerStatus.noConfusion hi
    rcases Option.ne_none_iff_exists.mp hsome with ⟨st, hst⟩
    have hstle : st ≤ clk := h.startTime_le st hst.symm
    have htotal : 0 ≤ e.state.pauseAccumulatedMs + (t - st) := by
      have := h.pauseAccum_nonneg; linarith
    have hR : StateInv (e.state.updateTimeCalculations t) t := by
      rw [TimerEngineState.updateTimeCalculations_some e.state st t hst.symm]
      obtain ⟨hsum, h0, hle⟩ := recompute_identity e.state.durationMs
        (e.state.pauseAccumulatedMs + (t - st)) h.duration_nonneg htotal
      refine ⟨h.duration_nonneg, hsum, h0, hle, h.pauseAccum_nonneg, ?_, ?_, ?_⟩
      · intro st' hst'
        have hss : e.state.startTime = some st' := by simpa using hst'
        rw [← hst] at hss
        injection hss with hq
        rw [← hq]
        linarith
      · show e.state.startTime = none ↔
          (e.state.status = TimerStatus.idle ∨ e.state.status = TimerStatus.paused)
        exact h.startTime_none_iff
      · intro hi
        have hi' : e.state.status = TimerStatus.idle := hi
        rw [hrun] at hi'
        exact TimerStatus.noConfusion hi'
    have h1 : StateInv ({ e with state := e.state.updateTimeCalculations t }).state t := hR
    have h2 := stateInv_checkPrecision h1 t
    have hrun2 : (({ e with state := e.state.updateTimeCalculations t }).checkPrecision
        t).state.status = TimerStatus.running := by
      rw [TimerEngine.checkPrecision_status]
      show (e.state.updateTimeCalculations t).status = TimerStatus.running
      rw [TimerEngineState.updateTimeCalculations_status]
      exact hrun
    unfold TimerEngine.rafTick
    rw [if_neg (not_not_intro hrun)]
    exact stateInv_finishCheck _ t h2 hrun2
  · unfold TimerEngine.rafTick
    rw [if_pos hrun]
    exact h.mono ht

/-- Every safely reachable engine state satisfies the invariant. -/
theorem reachableSafe_stateInv {e : TimerEngine} {clk : ℚ}
    (h : ReachableSafe e clk) : StateInv e.state clk := by
  induction h with
  | init d t0 hd => exact stateInv_init d t0 hd
  | start e clk t h ht ih =>
      by_cases hrun : e.state.status = TimerStatus.running
      · unfold TimerEngine.start
        rw [if_pos hrun]
        exact ih.mono ht
      · unfold TimerEngine.start
        rw [if_neg hrun]
        show StateInv (e.state.start t) t
        exact stateInv_start ih ht
  | pause e clk t h ht ih => exact stateInv_pause ih ht
  | resume e clk t h ht ih =>
      by_cases hp : e.state.status = TimerStatus.paused
      · have hrun : ¬ e.state.status = TimerStatus.running := by
          rw [hp]; exact fun hc => TimerStatus.noConfusion hc
        unfold TimerEngine.resume
        rw [if_neg (not_not_intro hp)]
        unfold TimerEngine.start
        rw [if_neg hrun]
        show StateInv (e.state.start t) t
        exact stateInv_start ih ht
      · unfold TimerEngine.resume
        rw [if_pos hp]
        exact ih.mono ht
  | reset e clk t h ht ih => exact stateInv_reset ih t
  | setDuration e clk d t h ht hd hsafe ih => exact stateInv_setDuration ih ht hd hsafe
  | tick e clk t h ht ih => exact stateInv_rafTick ih ht

/-- Characterization of a non-finishing `rafTick` step from its pieces:
the recompute result, the precision-check result, and positivity of the
remaining time. -/
theorem TimerEngine.rafTick_eq_of (e : TimerEngine) (t : ℚ) (u : TimerEngineState)
    (e2 : TimerEngine) (hrun : e.state.status = TimerStatus.running)
    (hu : e.state.updateTimeCalculations t = u)
    (hcp : TimerEngine.checkPrecision ⟨u, e.lastRafTime, e.lastPrecisionCheck⟩ t = e2)
    (hpos : ¬ e2.state.remainingMs ≤ 0) :
    e.rafTick t = e2 := by
  unfold TimerEngine.rafTick
  rw [if_neg (not_not_intro hrun)]
  simp only [hu, hcp, if_neg hpos]

/-- Characterization of a finishing `rafTick` step from its pieces. -/
theorem TimerEngine.rafTick_finish_eq_of (e : TimerEngine) (t : ℚ) (u : TimerEngineState)
    (e2 : TimerEngine) (hrun : e.state.status = TimerStatus.running)
    (hu : e.state.updateTimeCalculations t = u)
    (hcp : TimerEngine.checkPrecision ⟨u, e.lastRafTime, e.lastPrecisionCheck⟩ t = e2)
    (hzero : e2.state.remainingMs ≤ 0) :
    e.rafTick t = { e2 with state := { e2.state with
        status := .finished
        elapsedMs := e2.state.durationMs
        remainingMs := 0 } } := by
  unfold TimerEngine.rafTick
  rw [if_neg (not_not_intro hrun)]
  simp only [hu, hcp, if_pos hzero]

theorem finishCheck_startTime_iff (e2 : TimerEngine)
    (hrun2 : e2.state.status = TimerStatus.running)
    (hne : e2.state.startTime ≠ none) :
    (if e2.state.remainingMs ≤ 0 then
        { e2 with state := { e2.state with
            status := .finished
            elapsedMs := e2.state.durationMs
            remainingMs := 0 } }
      else e2).state.startTime = none ↔
      ((if e2.state.remainingMs ≤ 0 then
          { e2 with state := { e2.state with
              status := .finished
              elapsedMs := e2.state.durationMs
              remainingMs := 0 } }
        else e2).state.status = TimerStatus.idle ∨
       (if e2.state.remainingMs ≤ 0 then
          { e2 with state := { e2.state with
              status := .finished
              elapsedMs := e2.state.durationMs
              remainingMs := 0 } }
        else e2).state.status = TimerStatus.paused) := by
  split
  · simp [hne]
  · constructor
    · intro h0
      exact absurd h0 hne
    · rintro (hc | hc) <;> rw [hrun2] at hc <;> exact TimerStatus.noConfusion hc

/-- Every reachable engine state (no restriction at all on the call
pattern) has `startTime` present exactly outside `idle` and `paused` — in
particular a `finished` engine keeps the `startTime` of the run segment
that finished it. -/
theorem reachable_startTime_none_iff {e : TimerEngine} (h : Reachable e) :
    e.state.startTime = none ↔
      (e.state.status = TimerStatus.idle ∨ e.state.status = TimerStatus.paused) := by
  induction h with
  | init d t0 => simp [TimerEngine.init, TimerEngineState.init]
  | start e t _ ih =>
      by_cases hrun : e.state.status = TimerStatus.running
      · unfold TimerEngine.start
        rw [if_pos hrun]
        exact ih
      · unfold TimerEngine.start
        rw [if_neg hrun]
        show (e.state.start t).startTime = none ↔ _
        unfold TimerEngineState.start
        rw [if_neg hrun]
        simp
  | pause e t _ ih =>
      by_cases hrun : e.state.status = TimerStatus.running
      · show (e.state.pause t).startTime = none ↔
          ((e.state.pause t).status = TimerStatus.idle ∨
            (e.state.pause t).status = TimerStatus.paused)
        unfold TimerEngineState.pause
        rw [if_neg (not_not_intro hrun)]
        simp
      · show (e.state.pause t).startTime = none ↔
          ((e.state.pause t).status = TimerStatus.idle ∨
            (e.state.pause t).status = TimerStatus.paused)
        unfold TimerEngineState.pause
        rw [if_pos hrun]
        exact ih
  | resume e t _ ih =>
      by_cases hp : e.state.status = TimerStatus.paused
      · have hrun : ¬ e.state.status = TimerStatus.running := by
          rw [hp]; exact fun hc => TimerStatus.noConfusion hc
        unfold TimerEngine.resume
        rw [if_neg (not_not_intro hp)]
        unfold TimerEngine.start
        rw [if_neg hrun]
        show (e.state.start t).startTime = none ↔
          ((e.state.start t).status = TimerStatus.idle ∨
            (e.state.start t).status = TimerStatus.paused)
        unfold TimerEngineState.start
        rw [if_neg hrun]
        simp
      · unfold TimerEngine.resume
        rw [if_pos hp]
        exact ih
  | reset e t _ ih =>
      show (e.state.reset t).startTime = none ↔
        ((e.state.reset t).status = TimerStatus.idle ∨
          (e.state.reset t).status = TimerStatus.paused)
      simp [TimerEngineState.reset]
  | setDuration e d t _ ih =>
      show (e.state.setDuration d t).startTime = none ↔
        ((e.state.setDuration d t).status = TimerStatus.idle ∨
          (e.state.setDuration d t).status = TimerStatus.paused)
      rw [TimerEngineState.setDuration_startTime, TimerEngineState.setDuration_status]
      exact ih
  | tick e t _ ih =>
      by_cases hrun : e.state.status = TimerStatus.running
      · have hne : e.state.startTime ≠ none := by
          intro hnone
          rcases ih.mp hnone with hi | hi <;> rw [hrun] at hi <;>
            exact TimerStatus.noConfusion hi
        have he2run : (({ e with state := e.state.updateTimeCalculations t }
            : TimerEngine).checkPrecision t).state.status = TimerStatus.running := by
          rw [TimerEngine.checkPrecision_status]
          show (e.state.updateTimeCalculations t).status = TimerStatus.running
          rw [TimerEngineState.updateTimeCalculations_status]
          exact hrun
        have he2st : (({ e with state := e.state.updateTimeCalculations t }
            : TimerEngine).checkPrecision t).state.startTime ≠ none := by
          rw [TimerEngine.checkPrecision_startTime]
          show (e.state.updateTimeCalculations t).startTime ≠ none
          rw [TimerEngineState.updateTimeCalculations_startTime]
          exact hne
        unfold TimerEngine.rafTick
        rw [if_neg (not_not_intro hrun)]
        exact finishCheck_startTime_iff _ he2run he2st
      · unfold TimerEngine.rafTick
        rw [if_pos hrun]
        exact ih

/-- The trigger condition of `shouldTriggerBell` as a proposition. -/
theorem shouldTriggerBell_eq_true_iff (th curr prev : ℚ) (en trig : Bool) :
    shouldTriggerBell th curr prev en trig = true ↔
      (en = true ∧ trig = false ∧ 0 < th ∧ th < prev ∧ curr ≤ th) := by
  cases en
  · simp [shouldTriggerBell]
  · cases trig
    · by_cases h : th ≤ 0
      · simp [shouldTriggerBell, h, not_lt.mpr h]
      · have h' : 0 < th := not_le.mp h
        simp [shouldTriggerBell, h, h', gt_iff_lt]
    · simp [shouldTriggerBell]

/-! ## Claim theorems -/

/-- C2.  `checkBells`: on the very first call after construction or
`reset()` (cursor still the `Infinity` sentinel, modelled `none`) the
cursor is set to `currentRemainingMs` and the empty list is returned, for
every current value — even one at or below a threshold; on a subsequent
call a bell type is in the returned list iff its checkpoint is enabled,
not already triggered, has a positive threshold, and
`previousRemainingMs > thresholdMs ∧ currentRemainingMs ≤ thresholdMs`
(equality at the threshold triggers); and the cursor is updated to
`currentRemainingMs` in every case. -/
theorem C2_checkBells :
    (∀ (curr : ℚ) (s : TimerSettings) (b : BellState),
        checkBells none curr s b = ([], some curr)) ∧
    (∀ (prev curr : ℚ) (s : TimerSettings) (b : BellState) (ty : BellType),
        ty ∈ (checkBells (some prev) curr s b).1 ↔
          (ty.enabledOf s = true ∧ ty.triggeredOf b = false ∧
            0 < ty.thresholdOf s ∧ ty.thresholdOf s < prev ∧
            curr ≤ ty.thresholdOf s)) ∧
    (∀ (last : Option ℚ) (curr : ℚ) (s : TimerSettings) (b : BellState),
        (checkBells last curr s b).2 = some curr) := by
  refine ⟨fun curr s b => rfl, ?_, ?_⟩
  · intro prev curr s b ty
    cases ty <;>
      simp [checkBells, bellChecks, List.mem_filterMap, Option.ite_none_right_eq_some,
        shouldTriggerBell_eq_true_iff, BellType.thresholdOf, BellType.enabledOf,
        BellType.triggeredOf]
  · intro last curr s b
    cases last <;> rfl

/-- C7.  `setDuration` with the current duration is a complete no-op (the
state is returned unchanged, `lastUpdateTime` included), and calling
`setDuration` twice in a row with the same value changes nothing the
second time. -/
theorem C7_setDuration_idempotent :
    (∀ (s : TimerEngineState) (now : ℚ), s.setDuration s.durationMs now = s) ∧
    (∀ (s : TimerEngineState) (d n1 n2 : ℚ),
        (s.setDuration d n1).setDuration d n2 = s.setDuration d n1) := by
  constructor
  · intro s now
    unfold TimerEngineState.setDuration
    rw [if_pos rfl]
  · intro s d n1 n2
    have hd := TimerEngineState.setDuration_durationMs s d n1
    generalize hu : s.setDuration d n1 = u at hd
    unfold TimerEngineState.setDuration
    rw [if_pos hd]

/-- C10.  Frame effect of `setDuration`: for every engine state and every
requested duration and clock reading, `status`, `pauseAccumulatedMs` and
`startTime` are unchanged — in particular a `finished` engine stays
`finished` even when the new duration makes `remainingMs` positive
again. -/
theorem C10_setDuration_frame :
    ∀ (e : TimerEngine) (d now : ℚ),
      (e.setDuration d now).state.status = e.state.status ∧
      (e.setDuration d now).state.pauseAccumulatedMs = e.state.pauseAccumulatedMs ∧
      (e.setDuration d now).state.startTime = e.state.startTime :=
  fun e d now =>
    ⟨TimerEngineState.setDuration_status e.state d now,
     TimerEngineState.setDuration_pauseAccumulatedMs e.state d now,
     TimerEngineState.setDuration_startTime e.state d now⟩

/-- C8 (counterexample).  The claim asserts a zero-duration guard making
the rescale ratio `0`, so that `setDuration` from a zero-duration state
yields `remainingMs = 0`, never NaN.  The source has no such guard: from
the (only reachable) zero-duration configuration `remainingMs = 0`,
requesting the new duration `5000` computes
`Math.max(0, 5000 * (0 / 0)) = NaN`, not `0`. -/
theorem C8_zero_duration_nan :
    setDurationRescaledRemaining (.num 0) (.num 0) (.num 5000) = .nan ∧
      JsNum.nan ≠ JsNum.num 0 := by
  constructor
  · simp [setDurationRescaledRemaining, JsNum.jsDiv, JsNum.jsMul, JsNum.jsMax]
  · simp

/-- C8 (amended).  There is no zero-duration guard in `setDuration`: with
`oldDurationMs = 0` (where the only reachable `remainingMs` is `0`), the
IEEE rescale `Math.max(0, newDurationMs * (0 / 0))` is NaN for every
requested new duration whatsoever. -/
theorem C8_zero_duration_rescale_nan :
    ∀ newD : JsNum, setDurationRescaledRemaining (.num 0) (.num 0) newD = .nan := by
  intro newD
  cases newD <;> simp [setDurationRescaledRemaining, JsNum.jsDiv, JsNum.jsMul, JsNum.jsMax]

/-- C1 (counterexample).  The accounting invariant fails on a reachable
state: construct with duration 6 at clock 0, `start()` at 0, tick at 2
(elapsed 2, remaining 4), `pause()` at 2, then `setDuration(3)` at 2.
The rescale sets `remainingMs = 3 · (4/6) = 2`, but the forced recompute
is a no-op because `startTime` is absent while paused, so `elapsedMs`
stays 2 and `remainingMs + elapsedMs = 4 ≠ 3 = durationMs` (the trace
uses a monotone clock and positive durations throughout). -/
theorem C1_invariant_counterexample :
    Reachable (((((TimerEngine.init 6 0).start 0).rafTick 2).pause 2).setDuration 3 2) ∧
      (((((TimerEngine.init 6 0).start 0).rafTick 2).pause 2).setDuration 3 2).state.remainingMs +
        (((((TimerEngine.init 6 0).start 0).rafTick 2).pause 2).setDuration 3 2).state.elapsedMs ≠
        (((((TimerEngine.init 6 0).start 0).rafTick 2).pause 2).setDuration 3 2).state.durationMs := by
  constructor
  · exact Reachable.setDuration _ 3 2 (Reachable.pause _ 2 (Reachable.tick _ 2
      (Reachable.start _ 0 (Reachable.init 6 0))))
  · have h1 : (TimerEngine.init 6 0).start 0 =
        ⟨⟨.running, 6, 0, 6, some 0, 0, 0, 0⟩, 0, 0⟩ := by
      simp [TimerEngine.init, TimerEngineState.init, TimerEngine.start, TimerEngineState.start]
    rw [h1]
    have h2 : (⟨⟨.running, 6, 0, 6, some 0, 0, 0, 0⟩, 0, 0⟩ : TimerEngine).rafTick 2 =
        ⟨⟨.running, 6, 2, 4, some 0, 0, 2, 0⟩, 0, 0⟩ := by
      norm_num [TimerEngine.rafTick, TimerEngine.checkPrecision,
        TimerEngine.precisionCheckInterval, TimerEngineState.updateTimeCalculations,
        min_def, max_def]
    rw [h2]
    have h3 : (⟨⟨.running, 6, 2, 4, some 0, 0, 2, 0⟩, 0, 0⟩ : TimerEngine).pause 2 =
        ⟨⟨.paused, 6, 2, 4, none, 0, 2, 0⟩, 0, 0⟩ := by
      norm_num [TimerEngine.pause, TimerEngineState.pause]
    rw [h3]
    have h4 : (⟨⟨.paused, 6, 2, 4, none, 0, 2, 0⟩, 0, 0⟩ : TimerEngine).setDuration 3 2 =
        ⟨⟨.paused, 3, 2, 2, none, 0, 2, 0⟩, 0, 0⟩ := by
      norm_num [TimerEngine.setDuration, TimerEngineState.setDuration,
        TimerEngineState.updateTimeCalculations, min_def, max_def]
    rw [h4]
    norm_num

/-- C1 (amended).  For every engine state reachable under a monotone
clock, with validated (nonnegative) requested durations, and with every
`setDuration` call made either while `startTime` is present (running, or
finished via the tick) or on an idle engine with nonzero duration:
`remainingMs + elapsedMs = durationMs` and both `elapsedMs` and
`remainingMs` lie in `[0, durationMs]`.  (The restriction on `setDuration`
is forced by the counterexample: a paused — or zero-duration —
`setDuration` breaks the identity until the next recompute.) -/
theorem C1_invariant :
    ∀ (e : TimerEngine) (clk : ℚ), ReachableSafe e clk →
      e.state.remainingMs + e.state.elapsedMs = e.state.durationMs ∧
      0 ≤ e.state.elapsedMs ∧ e.state.elapsedMs ≤ e.state.durationMs ∧
      0 ≤ e.state.remainingMs ∧ e.state.remainingMs ≤ e.state.durationMs := by
  intro e clk h
  have hi := reachableSafe_stateInv h
  refine ⟨hi.sum_eq, hi.elapsed_nonneg, hi.elapsed_le, ?_, ?_⟩
  · have := hi.sum_eq
    have := hi.elapsed_le
    linarith
  · have := hi.sum_eq
    have := hi.elapsed_nonneg
    linarith

/-- C1 (witness): the invariant instantiated at a freshly constructed
10-millisecond engine. -/
theorem C1_invariant_witness :
    (TimerEngine.init 10 0).state.remainingMs + (TimerEngine.init 10 0).state.elapsedMs =
        (TimerEngine.init 10 0).state.durationMs ∧
      0 ≤ (TimerEngine.init 10 0).state.elapsedMs ∧
      (TimerEngine.init 10 0).state.elapsedMs ≤ (TimerEngine.init 10 0).state.durationMs ∧
      0 ≤ (TimerEngine.init 10 0).state.remainingMs ∧
      (TimerEngine.init 10 0).state.remainingMs ≤ (TimerEngine.init 10 0).state.durationMs :=
  C1_invariant _ 0 (ReachableSafe.init 10 0 (by norm_num))

/-- C9 (counterexample).  The claim says `startTime` is defined iff the
status is `running`, and in particular is undefined after the transition
to `finished`.  On the code, the tick that finishes the timer does not
clear `startTime`: starting a 3-millisecond engine at clock 0 and ticking
at 3 yields a `finished` state whose `startTime` is still `some 0`. -/
theorem C9_finished_keeps_startTime :
    ((((TimerEngine.init 3 0).start 0).rafTick 3)).state.status = TimerStatus.finished ∧
      ((((TimerEngine.init 3 0).start 0).rafTick 3)).state.startTime = some 0 := by
  have h1 : (TimerEngine.init 3 0).start 0 =
      ⟨⟨.running, 3, 0, 3, some 0, 0, 0, 0⟩, 0, 0⟩ := by
    simp [TimerEngine.init, TimerEngineState.init, TimerEngine.start, TimerEngineState.start]
  rw [h1]
  have h2 : (⟨⟨.running, 3, 0, 3, some 0, 0, 0, 0⟩, 0, 0⟩ : TimerEngine).rafTick 3 =
      ⟨⟨.finished, 3, 3, 0, some 0, 0, 3, 0⟩, 0, 0⟩ := by
    norm_num [TimerEngine.rafTick, TimerEngine.checkPrecision,
      TimerEngine.precisionCheckInterval, TimerEngineState.updateTimeCalculations,
      min_def, max_def]
  rw [h2]
  exact ⟨rfl, rfl⟩

/-- C9 (amended).  For every reachable engine state, `startTime` is
present iff the status is `running` **or** `finished` (the finishing tick
keeps it); it is absent exactly in `idle` and `paused` states, so after
`pause()` and `reset()` it is undefined as claimed. -/
theorem C9_startTime_iff :
    ∀ e : TimerEngine, Reachable e →
      (e.state.startTime ≠ none ↔
        (e.state.status = TimerStatus.running ∨ e.state.status = TimerStatus.finished)) := by
  intro e hre
  have h := reachable_startTime_none_iff hre
  cases hstat : e.state.status <;> rw [hstat] at h <;> simp_all

/-- C9 (witness): the amended characterization instantiated at a freshly
constructed engine (idle, no `startTime`). -/
theorem C9_startTime_iff_witness :
    (TimerEngine.init 5 0).state.startTime ≠ none ↔
      ((TimerEngine.init 5 0).state.status = TimerStatus.running ∨
        (TimerEngine.init 5 0).state.status = TimerStatus.finished) :=
  C9_startTime_iff _ (Reachable.init 5 0)

/-- C3 (code bug).  The claim's scenario — a timer started at clock time
0, paused at 2000, resumed at 7000, ticked at 8000 — yields
`elapsedMs = 1000` on the code, not the claimed 3000: `pause()` computes
the session with the truthy ternary
`this.state.startTime ? now - this.state.startTime : 0`, and the recorded
`startTime = 0` is falsy in JavaScript, so `0` is added to
`pauseAccumulatedMs` and the entire first 2000-ms run segment is lost
(here on a 10000-ms timer).  The identical scenario shifted to start at
clock 1000 — where `startTime` is truthy — yields the intended 3000,
showing that conservation is the intent and the truthiness test the slip
(the same field is tested with the strict `=== undefined` in
`updateTimeCalculations`). -/
theorem C3_truthiness_loses_first_segment :
    (((((TimerEngine.init 10000 0).start 0).pause 2000).resume 7000).rafTick
        8000).state.elapsedMs = 1000 ∧
    (((((TimerEngine.init 10000 1000).start 1000).pause 3000).resume 8000).rafTick
        9000).state.elapsedMs = 3000 := by
  constructor
  · have h1 : (TimerEngine.init 10000 0).start 0 =
        ⟨⟨.running, 10000, 0, 10000, some 0, 0, 0, 0⟩, 0, 0⟩ := by
      simp [TimerEngine.init, TimerEngineState.init, TimerEngine.start,
        TimerEngineState.start]
    rw [h1]
    have h2 : (⟨⟨.running, 10000, 0, 10000, some 0, 0, 0, 0⟩, 0, 0⟩ :
        TimerEngine).pause 2000 =
        ⟨⟨.paused, 10000, 0, 10000, none, 0, 2000, 0⟩, 0, 0⟩ := by
      norm_num [TimerEngine.pause, TimerEngineState.pause]
    rw [h2]
    have h3 : (⟨⟨.paused, 10000, 0, 10000, none, 0, 2000, 0⟩, 0, 0⟩ :
        TimerEngine).resume 7000 =
        ⟨⟨.running, 10000, 0, 10000, some 7000, 0, 7000, 0⟩, 7000, 7000⟩ := by
      simp [TimerEngine.resume, TimerEngine.start, TimerEngineState.start]
    rw [h3]
    have hu : (⟨.running, 10000, 0, 10000, some 7000, 0, 7000, 0⟩ :
        TimerEngineState).updateTimeCalculations 8000 =
        ⟨.running, 10000, 1000, 9000, some 7000, 0, 8000, 0⟩ := by
      rw [TimerEngineState.updateTimeCalculations_some _ 7000 8000 rfl]
      norm_num [min_def, max_def]
    have hcp : TimerEngine.checkPrecision
        ⟨⟨.running, 10000, 1000, 9000, some 7000, 0, 8000, 0⟩, 7000, 7000⟩ 8000 =
        ⟨⟨.running, 10000, 1000, 9000, some 7000, 0, 8000, 0⟩, 7000, 8000⟩ := by
      norm_num [TimerEngine.checkPrecision, TimerEngine.precisionCheckInterval,
        abs_eq_max_neg, max_def]
    rw [TimerEngine.rafTick_eq_of
      ⟨⟨.running, 10000, 0, 10000, some 7000, 0, 7000, 0⟩, 7000, 7000⟩ 8000
      ⟨.running, 10000, 1000, 9000, some 7000, 0, 8000, 0⟩
      ⟨⟨.running, 10000, 1000, 9000, some 7000, 0, 8000, 0⟩, 7000, 8000⟩
      rfl hu hcp (by norm_num)]
  · have h1 : (TimerEngine.init 10000 1000).start 1000 =
        ⟨⟨.running, 10000, 0, 10000, some 1000, 0, 1000, 0⟩, 1000, 1000⟩ := by
      simp [TimerEngine.init, TimerEngineState.init, TimerEngine.start,
        TimerEngineState.start]
    rw [h1]
    have h2 : (⟨⟨.running, 10000, 0, 10000, some 1000, 0, 1000, 0⟩, 1000, 1000⟩ :
        TimerEngine).pause 3000 =
        ⟨⟨.paused, 10000, 0, 10000, none, 2000, 3000, 0⟩, 1000, 1000⟩ := by
      norm_num [TimerEngine.pause, TimerEngineState.pause]
    rw [h2]
    have h3 : (⟨⟨.paused, 10000, 0, 10000, none, 2000, 3000, 0⟩, 1000, 1000⟩ :
        TimerEngine).resume 8000 =
        ⟨⟨.running, 10000, 0, 10000, some 8000, 2000, 8000, 0⟩, 8000, 8000⟩ := by
      simp [TimerEngine.resume, TimerEngine.start, TimerEngineState.start]
    rw [h3]
    have hu : (⟨.running, 10000, 0, 10000, some 8000, 2000, 8000, 0⟩ :
        TimerEngineState).updateTimeCalculations 9000 =
        ⟨.running, 10000, 3000, 7000, some 8000, 2000, 9000, 0⟩ := by
      rw [TimerEngineState.updateTimeCalculations_some _ 8000 9000 rfl]
      norm_num [min_def, max_def]
    have hcp : TimerEngine.checkPrecision
        ⟨⟨.running, 10000, 3000, 7000, some 8000, 2000, 9000, 0⟩, 8000, 8000⟩ 9000 =
        ⟨⟨.running, 10000, 3000, 7000, some 8000, 2000, 9000, 0⟩, 8000, 9000⟩ := by
      norm_num [TimerEngine.checkPrecision, TimerEngine.precisionCheckInterval,
        abs_eq_max_neg, max_def]
    rw [TimerEngine.rafTick_eq_of
      ⟨⟨.running, 10000, 0, 10000, some 8000, 2000, 8000, 0⟩, 8000, 8000⟩ 9000
      ⟨.running, 10000, 3000, 7000, some 8000, 2000, 9000, 0⟩
      ⟨⟨.running, 10000, 3000, 7000, some 8000, 2000, 9000, 0⟩, 8000, 9000⟩
      rfl hu hcp (by norm_num)]

/-- C4 (code bug).  A 3-ms engine started at clock 0 and ticked at 3 is
`finished`.  `pause()`, `resume()` and a further tick leave it `finished`,
and `reset()` moves it to `idle` — but `start()` at clock 5 moves it to
`running`: the guard in `start()` only rejects the `running` status, so
`finished` is *not* terminal with respect to `start()`, contradicting the
claim, the spec, and the repository's own design document, whose
transition table leaves `finished` only via reset. -/
theorem C4_start_restarts_finished :
    (((TimerEngine.init 3 0).start 0).rafTick 3).state.status = TimerStatus.finished ∧
    ((((TimerEngine.init 3 0).start 0).rafTick 3).pause 5).state.status
      = TimerStatus.finished ∧
    ((((TimerEngine.init 3 0).start 0).rafTick 3).resume 5).state.status
      = TimerStatus.finished ∧
    ((((TimerEngine.init 3 0).start 0).rafTick 3).rafTick 5).state.status
      = TimerStatus.finished ∧
    ((((TimerEngine.init 3 0).start 0).rafTick 3).reset 5).state.status
      = TimerStatus.idle ∧
    ((((TimerEngine.init 3 0).start 0).rafTick 3).start 5).state.status
      = TimerStatus.running := by
  have h1 : (TimerEngine.init 3 0).start 0 =
      ⟨⟨.running, 3, 0, 3, some 0, 0, 0, 0⟩, 0, 0⟩ := by
    simp [TimerEngine.init, TimerEngineState.init, TimerEngine.start, TimerEngineState.start]
  rw [h1]
  have h2 : (⟨⟨.running, 3, 0, 3, some 0, 0, 0, 0⟩, 0, 0⟩ : TimerEngine).rafTick 3 =
      ⟨⟨.finished, 3, 3, 0, some 0, 0, 3, 0⟩, 0, 0⟩ := by
    norm_num [TimerEngine.rafTick, TimerEngine.checkPrecision,
      TimerEngine.precisionCheckInterval, TimerEngineState.updateTimeCalculations,
      min_def, max_def]
  rw [h2]
  refine ⟨rfl, ?_, ?_, ?_, rfl, ?_⟩
  · simp [TimerEngine.pause, TimerEngineState.pause]
  · simp [TimerEngine.resume]
  · simp [TimerEngine.rafTick]
  · simp [TimerEngine.start, TimerEngineState.start]

/-- C5 (counterexample).  The claim demands an effective recompute on
`setDuration` regardless of status.  On a paused engine (construct 6 ms
at clock 0, start at 0, pause at 2), calling `setDuration(3)` at clock 5
leaves `lastUpdateTime` at 2 (not the current clock reading 5) and leaves
`elapsedMs` untouched: `updateTimeCalculations` early-returns because
`startTime` is absent. -/
theorem C5_setDuration_paused_no_recompute :
    (((TimerEngine.init 6 0).start 0).pause 2).state.status = TimerStatus.paused ∧
    ((((TimerEngine.init 6 0).start 0).pause 2).setDuration 3 5).state.lastUpdateTime ≠ 5 ∧
    ((((TimerEngine.init 6 0).start 0).pause 2).setDuration 3 5).state.elapsedMs =
      (((TimerEngine.init 6 0).start 0).pause 2).state.elapsedMs := by
  have h1 : (TimerEngine.init 6 0).start 0 =
      ⟨⟨.running, 6, 0, 6, some 0, 0, 0, 0⟩, 0, 0⟩ := by
    simp [TimerEngine.init, TimerEngineState.init, TimerEngine.start, TimerEngineState.start]
  rw [h1]
  have h2 : (⟨⟨.running, 6, 0, 6, some 0, 0, 0, 0⟩, 0, 0⟩ : TimerEngine).pause 2 =
      ⟨⟨.paused, 6, 0, 6, none, 0, 2, 0⟩, 0, 0⟩ := by
    norm_num [TimerEngine.pause, TimerEngineState.pause]
  rw [h2]
  have h3 : (⟨⟨.paused, 6, 0, 6, none, 0, 2, 0⟩, 0, 0⟩ : TimerEngine).setDuration 3 5 =
      ⟨⟨.paused, 3, 0, 3, none, 0, 2, 0⟩, 0, 0⟩ := by
    norm_num [TimerEngine.setDuration, TimerEngineState.setDuration,
      TimerEngineState.updateTimeCalculations, min_def, max_def]
  rw [h3]
  exact ⟨rfl, by norm_num, rfl⟩

/-- C5 (amended).  `setDuration` with a genuinely new duration recomputes
iff `startTime` is present: in that case `lastUpdateTime` becomes the
current clock reading and `elapsedMs` becomes
`min(pauseAccumulatedMs + (now − startTime), newDuration)`; when
`startTime` is absent (idle or paused), `elapsedMs` and `lastUpdateTime`
are left untouched. -/
theorem C5_setDuration_recompute (s : TimerEngineState) (d now : ℚ)
    (hne : s.durationMs ≠ d) :
    (∀ st : ℚ, s.startTime = some st →
        (s.setDuration d now).lastUpdateTime = now ∧
        (s.setDuration d now).elapsedMs = min (s.pauseAccumulatedMs + (now - st)) d) ∧
    (s.startTime = none →
        (s.setDuration d now).lastUpdateTime = s.lastUpdateTime ∧
        (s.setDuration d now).elapsedMs = s.elapsedMs) := by
  constructor
  · intro st hst
    rw [TimerEngineState.setDuration_of_ne hne now,
        TimerEngineState.updateTimeCalculations_some
          { s with
              durationMs := d
              remainingMs := max 0 (d * (s.remainingMs / s.durationMs)) }
          st now hst]
    exact ⟨rfl, rfl⟩
  · intro hst
    rw [TimerEngineState.setDuration_of_ne hne now,
        TimerEngineState.updateTimeCalculations_none
          { s with
              durationMs := d
              remainingMs := max 0 (d * (s.remainingMs / s.durationMs)) }
          now hst]
    exact ⟨rfl, rfl⟩

/-- C5 (witness): the recompute characterization instantiated at a
concrete paused state with duration 6, requesting duration 3 at clock
5. -/
theorem C5_setDuration_recompute_witness :
    (⟨.paused, 6, 0, 6, none, 2, 2, 0⟩ : TimerEngineState).durationMs ≠ 3 ∧
      ((∀ st : ℚ,
          (⟨.paused, 6, 0, 6, none, 2, 2, 0⟩ : TimerEngineState).startTime = some st →
          ((⟨.paused, 6, 0, 6, none, 2, 2, 0⟩ : TimerEngineState).setDuration 3 5).lastUpdateTime
              = 5 ∧
          ((⟨.paused, 6, 0, 6, none, 2, 2, 0⟩ : TimerEngineState).setDuration 3 5).elapsedMs =
            min ((⟨.paused, 6, 0, 6, none, 2, 2, 0⟩ :
              TimerEngineState).pauseAccumulatedMs + (5 - st)) 3) ∧
        ((⟨.paused, 6, 0, 6, none, 2, 2, 0⟩ : TimerEngineState).startTime = none →
          ((⟨.paused, 6, 0, 6, none, 2, 2, 0⟩ : TimerEngineState).setDuration 3 5).lastUpdateTime
              = (⟨.paused, 6, 0, 6, none, 2, 2, 0⟩ : TimerEngineState).lastUpdateTime ∧
          ((⟨.paused, 6, 0, 6, none, 2, 2, 0⟩ : TimerEngineState).setDuration 3 5).elapsedMs =
            (⟨.paused, 6, 0, 6, none, 2, 2, 0⟩ : TimerEngineState).elapsedMs)) :=
  ⟨by norm_num, C5_setDuration_recompute _ 3 5 (by norm_num)⟩

/-- C6 (counterexample).  On a *running* engine with `durationMs = 600000`
and `remainingMs = 480000` (start a 600000-ms engine at clock 0 and tick
at 120000), `setDuration(300000)` at clock 120000 does *not* yield
`remainingMs = 240000`: the proportional rescale is immediately
overwritten by the recompute from `elapsedMs`, giving
`remainingMs = 300000 − 120000 = 180000`. -/
theorem C6_running_rescale_overwritten :
    (((TimerEngine.init 600000 0).start 0).rafTick 120000).state.durationMs = 600000 ∧
    (((TimerEngine.init 600000 0).start 0).rafTick 120000).state.remainingMs = 480000 ∧
    ((((TimerEngine.init 600000 0).start 0).rafTick 120000).setDuration 300000
      120000).state.remainingMs = 180000 ∧
    (180000 : ℚ) ≠ 240000 := by
  have h1 : (TimerEngine.init 600000 0).start 0 =
      ⟨⟨.running, 600000, 0, 600000, some 0, 0, 0, 0⟩, 0, 0⟩ := by
    simp [TimerEngine.init, TimerEngineState.init, TimerEngine.start, TimerEngineState.start]
  rw [h1]
  have h2 : (⟨⟨.running, 600000, 0, 600000, some 0, 0, 0, 0⟩, 0, 0⟩ :
      TimerEngine).rafTick 120000 =
      ⟨⟨.running, 600000, 120000, 480000, some 0, 0, 120000, 120000⟩, 0, 120000⟩ := by
    refine TimerEngine.rafTick_eq_of _ 120000
      ⟨.running, 600000, 120000, 480000, some 0, 0, 120000, 0⟩ _ rfl ?_ ?_ ?_
    · rw [TimerEngineState.updateTimeCalculations_some _ 0 120000 rfl]
      norm_num [min_def, max_def]
    · norm_num [TimerEngine.checkPrecision, TimerEngine.precisionCheckInterval,
        abs_eq_max_neg, max_def]
    · norm_num
  rw [h2]
  have h3 : (⟨⟨.running, 600000, 120000, 480000, some 0, 0, 120000, 120000⟩, 0, 120000⟩ :
      TimerEngine).setDuration 300000 120000 =
      ⟨⟨.running, 300000, 120000, 180000, some 0, 0, 120000, 120000⟩, 0, 120000⟩ := by
    have hne : (⟨.running, 600000, 120000, 480000, some 0, 0, 120000, 120000⟩ :
        TimerEngineState).durationMs ≠ 300000 := by norm_num
    show ({ state := _, lastRafTime := _, lastPrecisionCheck := _ } : TimerEngine) = _
    rw [TimerEngineState.setDuration_of_ne hne 120000,
        TimerEngineState.updateTimeCalculations_some
          { (⟨.running, 600000, 120000, 480000, some 0, 0, 120000, 120000⟩ :
              TimerEngineState) with
              durationMs := 300000
              remainingMs := max 0 (300000 *
                ((⟨.running, 600000, 120000, 480000, some 0, 0, 120000, 120000⟩ :
                  TimerEngineState).remainingMs /
                 (⟨.running, 600000, 120000, 480000, some 0, 0, 120000, 120000⟩ :
                  TimerEngineState).durationMs)) }
          0 120000 rfl]
    norm_num [min_def, max_def]
  rw [h3]
  exact ⟨rfl, rfl, rfl, by norm_num⟩

/-- C6 (amended).  The proportional rescale does hold whenever the
recompute cannot overwrite it, i.e. when `startTime` is absent (idle or
paused): with `durationMs = 600000` and `remainingMs = 480000` (80 %),
`setDuration(300000)` yields `remainingMs = 240000` (still 80 %). -/
theorem C6_proportional_rescale_nonrunning (s : TimerEngineState) (now : ℚ)
    (hdur : s.durationMs = 600000) (hrem : s.remainingMs = 480000)
    (hst : s.startTime = none) :
    (s.setDuration 300000 now).remainingMs = 240000 := by
  have hne : s.durationMs ≠ 300000 := by rw [hdur]; norm_num
  rw [TimerEngineState.setDuration_of_ne hne now,
      TimerEngineState.updateTimeCalculations_none
        { s with
            durationMs := 300000
            remainingMs := max 0 (300000 * (s.remainingMs / s.durationMs)) }
        now hst]
  show max 0 (300000 * (s.remainingMs / s.durationMs)) = 240000
  rw [hrem, hdur]
  norm_num [max_def]

/-- C6 (witness): the rescale instantiated at a concrete paused state
with 80 % remaining. -/
theorem C6_proportional_rescale_nonrunning_witness :
    (⟨.paused, 600000, 120000, 480000, none, 120000, 2000, 0⟩ :
        TimerEngineState).durationMs = 600000 ∧
    (⟨.paused, 600000, 120000, 480000, none, 120000, 2000, 0⟩ :
        TimerEngineState).remainingMs = 480000 ∧
    (⟨.paused, 600000, 120000, 480000, none, 120000, 2000, 0⟩ :
        TimerEngineState).startTime = none ∧
    ((⟨.paused, 600000, 120000, 480000, none, 120000, 2000, 0⟩ :
        TimerEngineState).setDuration 300000 5000).remainingMs = 240000 :=
  ⟨rfl, rfl, rfl, C6_proportional_rescale_nonrunning _ 5000 rfl rfl rfl⟩

end SpeechTimer
